import Mathlib

/-
Verification of the xgotext catalog extractor (cli/xgotext/main.go).

The program walks Go source files, matches call expressions of the shape
receiver.Get / GetN / GetD / GetND / GetC / GetNC / GetDC / GetNDC, and
appends PO catalog entries to per-domain output files.

Shallow embedding: the fragment of the Go AST that the matcher consumes is
modelled by the types below; the process-wide mutable state (the map of open
domain files, the current domain and current file) becomes an explicit
ProgState record threaded through the functions; a file stream becomes the
list of byte chunks written to it, one chunk per f.Write call; log.Fatal and
runtime panics (failed type assertions, nil pointer dereference) become the
fatal and crash constructors of an Outcome type.  The external capability
strconv.Unquote is a parameter (uq) of the functions that use it.
-/

set_option autoImplicit false

namespace Gotext

/-- Result of running a program fragment: a normal result, an abort via
log.Fatal (clean fatal error, non-zero exit), or a runtime panic (failed
type assertion or nil pointer dereference). -/
inductive Outcome (α : Type) where
  | ok : α → Outcome α
  | fatal : Outcome α
  | crash : Outcome α
deriving DecidableEq, Repr

/-- Sequencing of fragments: fatal and crash abort the rest of the run. -/
def obind {α β : Type} (x : Outcome α) (f : α → Outcome β) : Outcome β :=
  match x with
  | .ok a => f a
  | .fatal => .fatal
  | .crash => .crash

/-- The kinds of ast.Object the matcher distinguishes (ast.Var, ast.Con);
every other ObjKind value is collapsed into otherKind, since the source only
ever compares against Var and Con. -/
inductive ObjKind where
  | var : ObjKind
  | con : ObjKind
  | otherKind : ObjKind
deriving DecidableEq, Repr

/-- The token kinds of an *ast.BasicLit the matcher distinguishes
(token.STRING, token.INT); all other literal kinds are collapsed. -/
inductive LitKind where
  | string : LitKind
  | int : LitKind
  | otherLit : LitKind
deriving DecidableEq, Repr

/-- The argument and receiver expressions the matcher inspects:
an *ast.BasicLit carries its Kind and its raw token text Value (quotes and
escapes included); an *ast.Ident carries its Name and its Obj, where none
models a nil Obj (an identifier the parser did not resolve); every other
expression node is otherExpr. -/
inductive Expr where
  | basicLit : LitKind → String → Expr
  | ident : String → Option ObjKind → Expr
  | otherExpr : Expr
deriving DecidableEq, Repr

/-- The function position of a call: an *ast.SelectorExpr carries its
receiver expression X and its selector name Sel.String(); any other
expression in function position is nonSelector. -/
inductive FunExpr where
  | selector : Expr → String → FunExpr
  | nonSelector : FunExpr
deriving DecidableEq, Repr

/-- The (file, line) position of the opening parenthesis of a call, as
resolved through fset.Position(call.Lparen). -/
structure Position where
  filename : String
  line : Nat
deriving DecidableEq, Repr

/-- An *ast.CallExpr: its Fun node, its ordered argument list and the
position of its opening parenthesis. -/
structure CallExpr where
  Fun : FunExpr
  args : List Expr
  lparen : Position
deriving DecidableEq, Repr

/-- The process-wide mutable state of main.go: domainFiles maps a domain
name to the chunks written to its open .po file (one chunk per f.Write);
currentDomain and currentFile are the global variables of the same names. -/
structure ProgState where
  domainFiles : List (String × List String)
  currentDomain : String
  currentFile : String
deriving DecidableEq, Repr

/-- The exact contents of the Go raw string literal in writePoHeader,
including the trailing newline, blank line and tab that precede the closing
backtick in the source. -/
def poHeaderText : String :=
  "msgid \"\"\n" ++
  "msgstr \"\"\n" ++
  "\"Plural-Forms: nplurals=2; plural=(n != 1);\\n\"\n" ++
  "\"MIME-Version: 1.0\\n\"\n" ++
  "\"Content-Type: text/plain; charset=UTF-8\\n\"\n" ++
  "\"Content-Transfer-Encoding: 8bit\\n\"\n" ++
  "\"Language: \\n\"\n" ++
  "\"X-Generator: xgotext\\n\"\n" ++
  "\n\t"

/-- Lookup in the domainFiles map (Go map indexing domainFiles[domain]). -/
def lookupDomain : List (String × List String) → String → Option (List String)
  | [], _ => none
  | (k, v) :: rest, d => if k = d then some v else lookupDomain rest d

/-- Append one written chunk to the file registered for domain d; a no-op
when d is not registered (never the case after getDomainFile). -/
def appendChunk : List (String × List String) → String → String → List (String × List String)
  | [], _, _ => []
  | (k, v) :: rest, d, c => if k = d then (k, v ++ [c]) :: rest else (k, v) :: appendChunk rest d c

/-- One f.Write call on the stream of domain d: appends one chunk. -/
def fileWrite (s : ProgState) (d : String) (chunk : String) : ProgState :=
  { s with domainFiles := appendChunk s.domainFiles d chunk }

/-- writePoHeader: a single f.Write of the fixed header raw string. -/
def writePoHeader (s : ProgState) (d : String) : ProgState :=
  fileWrite s d poHeaderText

/-- getDomainFile: return the cached stream when the domain is registered;
otherwise create (truncate) the backing file, register the empty stream,
write the header and return it.  File creation is assumed to succeed (an
open failure is log.Fatal in the source and depends only on the external
file system, not on the input being modelled). -/
def getDomainFile (s : ProgState) (domain : String) : ProgState :=
  match lookupDomain s.domainFiles domain with
  | some _ => s
  | none =>
      let s' := { s with domainFiles := s.domainFiles ++ [(domain, [])] }
      writePoHeader s' domain

/-- write: emit a singular entry body (msgid line, empty msgstr line,
trailing newline) on the stream of dom. -/
def write (s : ProgState) (dom msgid : String) : ProgState :=
  let s1 := getDomainFile s dom
  let s2 := fileWrite s1 dom ("\nmsgid " ++ msgid)
  let s3 := fileWrite s2 dom "\nmsgstr \"\""
  fileWrite s3 dom "\n"

/-- writePlural: emit a plural entry body (msgid, msgid_plural, two empty
msgstr forms, trailing newline) on the stream of dom. -/
def writePlural (s : ProgState) (dom msgid msgidPlural : String) : ProgState :=
  let s1 := getDomainFile s dom
  let s2 := fileWrite s1 dom ("\nmsgid " ++ msgid)
  let s3 := fileWrite s2 dom ("\nmsgid_plural " ++ msgidPlural)
  let s4 := fileWrite s3 dom "\nmsgstr[0] \"\""
  let s5 := fileWrite s4 dom "\nmsgstr[1] \"\""
  fileWrite s5 dom "\n"

/-- writeContext: emit a msgctxt line on the stream of dom. -/
def writeContext (s : ProgState) (dom ctx : String) : ProgState :=
  let s1 := getDomainFile s dom
  fileWrite s1 dom ("\nmsgctxt " ++ ctx)

/-- writeComments: emit the location comment and the call-label comment on
the stream of dom. -/
def writeComments (s : ProgState) (dom file call : String) : ProgState :=
  let s1 := getDomainFile s dom
  let s2 := fileWrite s1 dom ("\n#: " ++ file)
  fileWrite s2 dom ("\n#. " ++ call)

/-- fmt.Sprintf of the location of the opening parenthesis. -/
def posString (p : Position) : String :=
  p.filename ++ ":" ++ toString p.line

/-- The label expression call.Fun.(*ast.SelectorExpr).X.(*ast.Ident).Name
followed by the selector name: the two type assertions panic (crash) when
Fun is not a selector or when the receiver X is not a plain identifier. -/
def callLabel (c : CallExpr) : Outcome String :=
  match c.Fun with
  | .selector (.ident name _) sel => .ok (name ++ "." ++ sel)
  | _ => .crash

/-- parseGet: one string-literal argument required at position 0. -/
def parseGet (c : CallExpr) (s : ProgState) : Outcome ProgState :=
  match c.args with
  | .basicLit .string v :: _ =>
      obind (callLabel c) (fun lbl =>
        let s1 := writeComments s s.currentDomain (posString c.lparen) lbl
        .ok (write s1 s.currentDomain v))
  | _ => .ok s

/-- parseGetN: at least 3 arguments, positions 0 and 1 string literals, and
the count argument at position 2 must be an integer literal or an identifier
whose Obj kind is Var or Con; when the identifier has a nil Obj the Go code
dereferences the nil pointer (crash). -/
def parseGetN (c : CallExpr) (s : ProgState) : Outcome ProgState :=
  match c.args with
  | .basicLit .string v0 :: .basicLit .string v1 :: countArg :: _ =>
      match countArg with
      | .basicLit k _ =>
          if k = LitKind.int then
            obind (callLabel c) (fun lbl =>
              let s1 := writeComments s s.currentDomain (posString c.lparen) lbl
              .ok (writePlural s1 s.currentDomain v0 v1))
          else .ok s
      | .ident _ obj =>
          match obj with
          | none => .crash
          | some k =>
              if k = ObjKind.var ∨ k = ObjKind.con then
                obind (callLabel c) (fun lbl =>
                  let s1 := writeComments s s.currentDomain (posString c.lparen) lbl
                  .ok (writePlural s1 s.currentDomain v0 v1))
              else .ok s
      | _ => .ok s
  | _ => .ok s

/-- parseGetD: positions 0 and 1 string literals; the position-0 literal is
unquoted to give the domain, failure being log.Fatal. -/
def parseGetD (uq : String → Option String) (c : CallExpr) (s : ProgState) : Outcome ProgState :=
  match c.args with
  | .basicLit .string v0 :: .basicLit .string v1 :: _ =>
      match uq v0 with
      | none => .fatal
      | some dom =>
          obind (callLabel c) (fun lbl =>
            let s1 := writeComments s dom (posString c.lparen) lbl
            .ok (write s1 dom v1))
  | _ => .ok s

/-- parseGetND: positions 0, 1, 2 string literals; domain from position 0. -/
def parseGetND (uq : String → Option String) (c : CallExpr) (s : ProgState) : Outcome ProgState :=
  match c.args with
  | .basicLit .string v0 :: .basicLit .string v1 :: .basicLit .string v2 :: _ =>
      match uq v0 with
      | none => .fatal
      | some dom =>
          obind (callLabel c) (fun lbl =>
            let s1 := writeComments s dom (posString c.lparen) lbl
            .ok (writePlural s1 dom v1 v2))
  | _ => .ok s

/-- parseGetC: positions 0 and 1 string literals; context from position 1. -/
def parseGetC (c : CallExpr) (s : ProgState) : Outcome ProgState :=
  match c.args with
  | .basicLit .string v0 :: .basicLit .string v1 :: _ =>
      obind (callLabel c) (fun lbl =>
        let s1 := writeComments s s.currentDomain (posString c.lparen) lbl
        let s2 := writeContext s1 s.currentDomain v1
        .ok (write s2 s.currentDomain v0))
  | _ => .ok s

/-- parseGetNC: more than 3 arguments, positions 0, 1 and 3 string literals;
the count argument at position 2 is never inspected. -/
def parseGetNC (c : CallExpr) (s : ProgState) : Outcome ProgState :=
  match c.args with
  | .basicLit .string v0 :: .basicLit .string v1 :: _ :: .basicLit .string v3 :: _ =>
      obind (callLabel c) (fun lbl =>
        let s1 := writeComments s s.currentDomain (posString c.lparen) lbl
        let s2 := writeContext s1 s.currentDomain v3
        .ok (writePlural s2 s.currentDomain v0 v1))
  | _ => .ok s

/-- parseGetDC: positions 0, 1, 2 string literals; domain from position 0,
context from position 2. -/
def parseGetDC (uq : String → Option String) (c : CallExpr) (s : ProgState) : Outcome ProgState :=
  match c.args with
  | .basicLit .string v0 :: .basicLit .string v1 :: .basicLit .string v2 :: _ =>
      match uq v0 with
      | none => .fatal
      | some dom =>
          obind (callLabel c) (fun lbl =>
            let s1 := writeComments s dom (posString c.lparen) lbl
            let s2 := writeContext s1 dom v2
            .ok (write s2 dom v1))
  | _ => .ok s

/-- parseGetNDC: more than 4 arguments, positions 0, 1, 2 and 4 string
literals; domain from position 0, context from position 4; the count
argument at position 3 is never inspected. -/
def parseGetNDC (uq : String → Option String) (c : CallExpr) (s : ProgState) : Outcome ProgState :=
  match c.args with
  | .basicLit .string v0 :: .basicLit .string v1 :: .basicLit .string v2 :: _ :: .basicLit .string v4 :: _ =>
      match uq v0 with
      | none => .fatal
      | some dom =>
          obind (callLabel c) (fun lbl =>
            let s1 := writeComments s dom (posString c.lparen) lbl
            let s2 := writeContext s1 dom v4
            .ok (writePlural s2 dom v1 v2))
  | _ => .ok s

/-- inspectCallExpr: dispatch on the selector name of the call; calls not
made through a selector, and unknown selector names, are ignored. -/
def inspectCallExpr (uq : String → Option String) (c : CallExpr) (s : ProgState) : Outcome ProgState :=
  match c.Fun with
  | .selector _ sel =>
      match sel with
      | "Get" => parseGet c s
      | "GetN" => parseGetN c s
      | "GetD" => parseGetD uq c s
      | "GetND" => parseGetND uq c s
      | "GetC" => parseGetC c s
      | "GetNC" => parseGetNC c s
      | "GetDC" => parseGetDC uq c s
      | "GetNDC" => parseGetNDC uq c s
      | _ => .ok s
  | .nonSelector => .ok s

/-- ast.Inspect over one parsed file, restricted to the call expressions it
visits: the calls are processed one after the other in the fixed traversal
order in which ast.Inspect discovers them. -/
def processCalls (uq : String → Option String) : List CallExpr → ProgState → Outcome ProgState
  | [], s => .ok s
  | c :: rest, s => obind (inspectCallExpr uq c s) (processCalls uq rest)

/-- A parsed source file, presented through the external-parser interface:
its name and the call expressions of its syntax tree in traversal order.
Parse failure of a file is log.Fatal in the source and is outside the
matcher fragment modelled here. -/
structure SourceFile where
  name : String
  calls : List CallExpr
deriving DecidableEq, Repr

/-- parseFile: remember the current file name, then inspect its tree. -/
def parseFile (uq : String → Option String) (file : SourceFile) (s : ProgState) : Outcome ProgState :=
  processCalls uq file.calls { s with currentFile := file.name }

/-- parseDir: process the files of the parsed packages one after the other.
The Go source ranges over the maps pkgs and pkg.Files; the order of the
list given here is that map-range order, which the Go language leaves
unspecified. -/
def parseDir (uq : String → Option String) : List SourceFile → ProgState → Outcome ProgState
  | [], s => .ok s
  | f :: rest, s => obind (parseFile uq f s) (parseDir uq rest)

/-- The state at the top of main: no domain file open, currentDomain is the
constant "default" (never reassigned anywhere in the program). -/
def initialState : ProgState :=
  { domainFiles := [], currentDomain := "default", currentFile := "" }

/-- The chunks written so far to the catalog of domain d. -/
def catalogChunks (s : ProgState) (d : String) : List String :=
  (lookupDomain s.domainFiles d).getD []

/-- The byte contents of the catalog file of domain d, when open. -/
def catalogText (s : ProgState) (d : String) : Option String :=
  (lookupDomain s.domainFiles d).map String.join

/-- Whether an expression is a plain identifier (the shape the label type
assertion in the write path requires of the receiver). -/
def isIdentExpr : Expr → Bool
  | .ident _ _ => true
  | _ => false

/-- A catalog stream is well formed when its first chunk is exactly the
header text and every later chunk starts with a newline byte (hence no
later chunk can be the header, which starts with the byte of letter m):
the header appears exactly once, before any entry. -/
def goodCatalog (cs : List String) : Bool :=
  match cs with
  | [] => false
  | first :: rest => first == poHeaderText && rest.all (fun ch => ch.data.head? == some '\n')

/-- Global invariant on the program state: domain names registered at most
once (no two names share a stream) and every open catalog well formed. -/
def Inv (s : ProgState) : Prop :=
  (s.domainFiles.map Prod.fst).Nodup ∧
  ∀ d cs, lookupDomain s.domainFiles d = some cs → goodCatalog cs = true

/-- Modelled from the spec: the header block exactly as printed in the
output-format section of the specification, eight lines each terminated by
a newline, with no trailing whitespace.  Used to compare the specified
output format with the header the program actually writes. -/
def specHeaderBlock : String :=
  "msgid \"\"\n" ++
  "msgstr \"\"\n" ++
  "\"Plural-Forms: nplurals=2; plural=(n != 1);\\n\"\n" ++
  "\"MIME-Version: 1.0\\n\"\n" ++
  "\"Content-Type: text/plain; charset=UTF-8\\n\"\n" ++
  "\"Content-Transfer-Encoding: 8bit\\n\"\n" ++
  "\"Language: \\n\"\n" ++
  "\"X-Generator: xgotext\\n\"\n"

/-- A concrete instance of the external strconv.Unquote capability, agreeing
with it on escape-free double-quoted tokens: strips the surrounding double
quotes when the token is a double-quoted string whose interior contains no
double quote and no backslash, and rejects every other token.  Used only to
instantiate witnesses and counterexamples at concrete inputs. -/
def simpleUnquote (s : String) : Option String :=
  let cs := s.data
  if 2 ≤ cs.length ∧ cs.head? = some '"' ∧ cs.getLast? = some '"'
      ∧ ∀ c ∈ (cs.drop 1).dropLast, c ≠ '"' ∧ c ≠ '\\'
  then some (String.mk ((cs.drop 1).dropLast))
  else none

/-- Whether an expression is a string literal token (*ast.BasicLit of kind
token.STRING), the shape every required string position must have. -/
def isStringLit : Expr → Bool
  | .basicLit .string _ => true
  | _ => false

/-- The literal-string argument guard of each variant, read off the nested
checks of the corresponding parse function: the minimum argument count and
the positions that must hold string literals.  The count argument of the
plural variants is not part of this guard. -/
def stringGuard (sel : String) (args : List Expr) : Bool :=
  match sel, args with
  | "Get", a0 :: _ => isStringLit a0
  | "GetN", a0 :: a1 :: _ :: _ => isStringLit a0 && isStringLit a1
  | "GetD", a0 :: a1 :: _ => isStringLit a0 && isStringLit a1
  | "GetND", a0 :: a1 :: a2 :: _ => isStringLit a0 && isStringLit a1 && isStringLit a2
  | "GetC", a0 :: a1 :: _ => isStringLit a0 && isStringLit a1
  | "GetNC", a0 :: a1 :: _ :: a3 :: _ => isStringLit a0 && isStringLit a1 && isStringLit a3
  | "GetDC", a0 :: a1 :: a2 :: _ => isStringLit a0 && isStringLit a1 && isStringLit a2
  | "GetNDC", a0 :: a1 :: a2 :: _ :: a4 :: _ =>
      isStringLit a0 && isStringLit a1 && isStringLit a2 && isStringLit a4
  | _, _ => false

/-- Whether a selector name is one of the 8 recognized variants. -/
def knownVariant (sel : String) : Bool :=
  match sel with
  | "Get" => true
  | "GetN" => true
  | "GetD" => true
  | "GetND" => true
  | "GetC" => true
  | "GetNC" => true
  | "GetDC" => true
  | "GetNDC" => true
  | _ => false

/-- The chunks of the catalog of d once d has been ensured open: the
existing chunks when d is registered, a fresh header otherwise. -/
def afterHeader (s : ProgState) (d : String) : List String :=
  (lookupDomain s.domainFiles d).getD [poHeaderText]

/-- A source file holding one Get call with msgid token "alpha". -/
def fileA : SourceFile :=
  ⟨"a.go", [⟨.selector (.ident "t" none) "Get", [.basicLit .string "\"alpha\""], ⟨"a.go", 3⟩⟩]⟩

/-- A source file holding one Get call with msgid token "beta". -/
def fileB : SourceFile :=
  ⟨"b.go", [⟨.selector (.ident "t" none) "Get", [.basicLit .string "\"beta\""], ⟨"b.go", 5⟩⟩]⟩

/-- A GetNC call whose count argument (position 2) is neither an integer
literal nor an identifier: a shape the claim says must be skipped. -/
def cGetNCBad : CallExpr :=
  ⟨.selector (.ident "t" none) "GetNC",
   [.basicLit .string "\"%d apple\"", .basicLit .string "\"%d apples\"",
    .otherExpr, .basicLit .string "\"fruit\""], ⟨"f.go", 7⟩⟩

/-- A GetN call whose count argument is an identifier with a nil Obj (an
identifier the parser could not resolve to any declaration). -/
def cGetNNil : CallExpr :=
  ⟨.selector (.ident "t" none) "GetN",
   [.basicLit .string "\"one\"", .basicLit .string "\"many\"", .ident "n" none], ⟨"f.go", 9⟩⟩

/-- A single Get call, for runs exercising the header layout. -/
def cGetHi : CallExpr :=
  ⟨.selector (.ident "t" none) "Get", [.basicLit .string "\"hi\""], ⟨"f.go", 1⟩⟩

/-- A GetD call a.b.GetD("app", "save") whose receiver expression is itself
a selector, not a plain identifier, with both required string literals in
place and an unquotable domain token. -/
def cGetDChain : CallExpr :=
  ⟨.selector .otherExpr "GetD",
   [.basicLit .string "\"app\"", .basicLit .string "\"save\""], ⟨"f.go", 4⟩⟩

/-- Observation of a finished run: the byte contents of the catalog of d
when the run ended normally, none when it aborted. -/
def runCatalog (r : Outcome ProgState) (d : String) : Option String :=
  match r with
  | .ok s => catalogText s d
  | _ => none

/-- The state produced by running the extractor on fileA alone. -/
def stWitA : ProgState :=
  ⟨[("default",
     [poHeaderText, "\n#: a.go:3", "\n#. t.Get", "\nmsgid \"alpha\"", "\nmsgstr \"\"", "\n"])],
   "default", "a.go"⟩

theorem lookupDomain_eq_none_iff (l : List (String × List String)) (d : String) :
    lookupDomain l d = none ↔ ∀ p ∈ l, p.1 ≠ d := by
  induction l with
  | nil => simp [lookupDomain]
  | cons p rest ih =>
      obtain ⟨k, v⟩ := p
      by_cases hk : k = d
      · subst hk
        simp [lookupDomain]
      · simp [lookupDomain, hk, ih]

theorem lookupDomain_append (l m : List (String × List String)) (d : String) :
    lookupDomain (l ++ m) d = ((lookupDomain l d).orElse (fun _ => lookupDomain m d)) := by
  induction l with
  | nil => simp [lookupDomain]
  | cons p rest ih =>
      obtain ⟨k, v⟩ := p
      by_cases hk : k = d
      · subst hk
        simp [lookupDomain]
      · simpa [lookupDomain, hk] using ih

theorem lookupDomain_appendChunk (l : List (String × List String)) (d c d' : String) :
    lookupDomain (appendChunk l d c) d' =
      if d' = d then (lookupDomain l d').map (fun v => v ++ [c]) else lookupDomain l d' := by
  induction l with
  | nil =>
      simp only [appendChunk, lookupDomain]
      split <;> rfl
  | cons p rest ih =>
      obtain ⟨k, v⟩ := p
      by_cases hk : k = d
      · subst hk
        by_cases hd : k = d'
        · subst hd
          simp [appendChunk, lookupDomain]
        · have hd2 : ¬ d' = k := fun h => hd h.symm
          simp [appendChunk, lookupDomain, hd, hd2]
      · by_cases hd : k = d'
        · subst hd
          simp [appendChunk, lookupDomain, hk]
        · simp [appendChunk, lookupDomain, hk, hd, ih]

theorem appendChunk_map_fst (l : List (String × List String)) (d c : String) :
    (appendChunk l d c).map Prod.fst = l.map Prod.fst := by
  induction l with
  | nil => rfl
  | cons p rest ih =>
      obtain ⟨k, v⟩ := p
      by_cases hk : k = d
      · simp [appendChunk, hk]
      · simp [appendChunk, hk, ih]

theorem appendChunk_last (l : List (String × List String)) (d c : String) (v : List String)
    (h : ∀ p ∈ l, p.1 ≠ d) :
    appendChunk (l ++ [(d, v)]) d c = l ++ [(d, v ++ [c])] := by
  induction l with
  | nil => simp [appendChunk]
  | cons p rest ih =>
      obtain ⟨k, w⟩ := p
      have hk : k ≠ d := h (k, w) (List.mem_cons_self _ _)
      have ih2 := ih (fun q hq => h q (List.mem_cons_of_mem _ hq))
      calc appendChunk (((k, w) :: rest) ++ [(d, v)]) d c
          = (k, w) :: appendChunk (rest ++ [(d, v)]) d c := by
            rw [List.cons_append]
            simp [appendChunk, hk]
        _ = (k, w) :: (rest ++ [(d, v ++ [c])]) := by rw [ih2]
        _ = ((k, w) :: rest) ++ [(d, v ++ [c])] := by rw [List.cons_append]

theorem getDomainFile_of_some (s : ProgState) (d : String) (v : List String)
    (h : lookupDomain s.domainFiles d = some v) : getDomainFile s d = s := by
  unfold getDomainFile
  rw [h]

theorem getDomainFile_of_none (s : ProgState) (d : String)
    (h : lookupDomain s.domainFiles d = none) :
    getDomainFile s d = { s with domainFiles := s.domainFiles ++ [(d, [poHeaderText])] } := by
  have hne := (lookupDomain_eq_none_iff s.domainFiles d).1 h
  have hlast : appendChunk (s.domainFiles ++ [(d, [])]) d poHeaderText =
      s.domainFiles ++ [(d, [poHeaderText])] := by
    simpa using appendChunk_last s.domainFiles d poHeaderText [] hne
  simp [getDomainFile, writePoHeader, fileWrite, h, hlast]

theorem lookup_getDomainFile_self (s : ProgState) (d : String) :
    lookupDomain (getDomainFile s d).domainFiles d = some (afterHeader s d) := by
  cases h : lookupDomain s.domainFiles d with
  | some v =>
      rw [getDomainFile_of_some s d v h]
      simp [afterHeader, h]
  | none =>
      rw [getDomainFile_of_none s d h]
      simp [afterHeader, h, lookupDomain_append, lookupDomain, Option.orElse]

theorem lookup_getDomainFile_ne (s : ProgState) (d d' : String) (h : d' ≠ d) :
    lookupDomain (getDomainFile s d).domainFiles d' = lookupDomain s.domainFiles d' := by
  cases h0 : lookupDomain s.domainFiles d with
  | some v => rw [getDomainFile_of_some s d v h0]
  | none =>
      rw [getDomainFile_of_none s d h0]
      have h2 : ¬ d = d' := fun e => h e.symm
      simp only [lookupDomain_append, lookupDomain, if_neg h2]
      cases hx : lookupDomain s.domainFiles d' <;> simp [Option.orElse]

theorem lookup_fileWrite_self (s : ProgState) (d c : String) :
    lookupDomain (fileWrite s d c).domainFiles d =
      (lookupDomain s.domainFiles d).map (fun v => v ++ [c]) := by
  simp [fileWrite, lookupDomain_appendChunk]

theorem lookup_fileWrite_ne (s : ProgState) (d c d' : String) (h : d' ≠ d) :
    lookupDomain (fileWrite s d c).domainFiles d' = lookupDomain s.domainFiles d' := by
  simp [fileWrite, lookupDomain_appendChunk, h]

theorem lookup_writeComments_self (s : ProgState) (dom f c : String) :
    lookupDomain (writeComments s dom f c).domainFiles dom =
      some (afterHeader s dom ++ ["\n#: " ++ f, "\n#. " ++ c]) := by
  unfold writeComments
  simp [lookup_fileWrite_self, lookup_getDomainFile_self]

theorem lookup_writeContext_self (s : ProgState) (dom ctx : String) :
    lookupDomain (writeContext s dom ctx).domainFiles dom =
      some (afterHeader s dom ++ ["\nmsgctxt " ++ ctx]) := by
  unfold writeContext
  simp [lookup_fileWrite_self, lookup_getDomainFile_self]

theorem lookup_write_self (s : ProgState) (dom m : String) :
    lookupDomain (write s dom m).domainFiles dom =
      some (afterHeader s dom ++ ["\nmsgid " ++ m, "\nmsgstr \"\"", "\n"]) := by
  unfold write
  simp [lookup_fileWrite_self, lookup_getDomainFile_self]

theorem lookup_writePlural_self (s : ProgState) (dom m p : String) :
    lookupDomain (writePlural s dom m p).domainFiles dom =
      some (afterHeader s dom ++
        ["\nmsgid " ++ m, "\nmsgid_plural " ++ p, "\nmsgstr[0] \"\"", "\nmsgstr[1] \"\"", "\n"]) := by
  unfold writePlural
  simp [lookup_fileWrite_self, lookup_getDomainFile_self]

theorem lookup_writeComments_ne (s : ProgState) (dom f c d' : String) (h : d' ≠ dom) :
    lookupDomain (writeComments s dom f c).domainFiles d' = lookupDomain s.domainFiles d' := by
  unfold writeComments
  simp [lookup_fileWrite_ne _ _ _ _ h, lookup_getDomainFile_ne _ _ _ h]

theorem lookup_writeContext_ne (s : ProgState) (dom ctx d' : String) (h : d' ≠ dom) :
    lookupDomain (writeContext s dom ctx).domainFiles d' = lookupDomain s.domainFiles d' := by
  unfold writeContext
  simp [lookup_fileWrite_ne _ _ _ _ h, lookup_getDomainFile_ne _ _ _ h]

theorem lookup_write_ne (s : ProgState) (dom m d' : String) (h : d' ≠ dom) :
    lookupDomain (write s dom m).domainFiles d' = lookupDomain s.domainFiles d' := by
  unfold write
  simp [lookup_fileWrite_ne _ _ _ _ h, lookup_getDomainFile_ne _ _ _ h]

theorem lookup_writePlural_ne (s : ProgState) (dom m p d' : String) (h : d' ≠ dom) :
    lookupDomain (writePlural s dom m p).domainFiles d' = lookupDomain s.domainFiles d' := by
  unfold writePlural
  simp [lookup_fileWrite_ne _ _ _ _ h, lookup_getDomainFile_ne _ _ _ h]

theorem afterHeader_of_some (s : ProgState) (d : String) (v : List String)
    (h : lookupDomain s.domainFiles d = some v) : afterHeader s d = v := by
  simp [afterHeader, h]

theorem entry_plain (s : ProgState) (dom loc lbl m : String) :
    lookupDomain (write (writeComments s dom loc lbl) dom m).domainFiles dom =
      some (afterHeader s dom ++
        ["\n#: " ++ loc, "\n#. " ++ lbl, "\nmsgid " ++ m, "\nmsgstr \"\"", "\n"]) := by
  rw [lookup_write_self,
    afterHeader_of_some _ _ _ (lookup_writeComments_self s dom loc lbl)]
  simp

theorem entry_ctx (s : ProgState) (dom loc lbl ctx m : String) :
    lookupDomain (write (writeContext (writeComments s dom loc lbl) dom ctx) dom m).domainFiles dom =
      some (afterHeader s dom ++
        ["\n#: " ++ loc, "\n#. " ++ lbl, "\nmsgctxt " ++ ctx,
         "\nmsgid " ++ m, "\nmsgstr \"\"", "\n"]) := by
  rw [lookup_write_self,
    afterHeader_of_some _ _ _ (lookup_writeContext_self _ dom ctx),
    afterHeader_of_some _ _ _ (lookup_writeComments_self s dom loc lbl)]
  simp

theorem entry_plural (s : ProgState) (dom loc lbl m p : String) :
    lookupDomain (writePlural (writeComments s dom loc lbl) dom m p).domainFiles dom =
      some (afterHeader s dom ++
        ["\n#: " ++ loc, "\n#. " ++ lbl, "\nmsgid " ++ m, "\nmsgid_plural " ++ p,
         "\nmsgstr[0] \"\"", "\nmsgstr[1] \"\"", "\n"]) := by
  rw [lookup_writePlural_self,
    afterHeader_of_some _ _ _ (lookup_writeComments_self s dom loc lbl)]
  simp

theorem entry_ctx_plural (s : ProgState) (dom loc lbl ctx m p : String) :
    lookupDomain
        (writePlural (writeContext (writeComments s dom loc lbl) dom ctx) dom m p).domainFiles dom =
      some (afterHeader s dom ++
        ["\n#: " ++ loc, "\n#. " ++ lbl, "\nmsgctxt " ++ ctx, "\nmsgid " ++ m,
         "\nmsgid_plural " ++ p, "\nmsgstr[0] \"\"", "\nmsgstr[1] \"\"", "\n"]) := by
  rw [lookup_writePlural_self,
    afterHeader_of_some _ _ _ (lookup_writeContext_self _ dom ctx),
    afterHeader_of_some _ _ _ (lookup_writeComments_self s dom loc lbl)]
  simp

theorem goodCatalog_append (cs : List String) (c : String) (hcs : goodCatalog cs = true)
    (hc : c.data.head? = some '\n') : goodCatalog (cs ++ [c]) = true := by
  cases cs with
  | nil => simp [goodCatalog] at hcs
  | cons f r =>
      simp only [goodCatalog, Bool.and_eq_true, List.all_append, List.all_cons, List.all_nil,
        List.cons_append, Bool.and_true, beq_iff_eq] at hcs ⊢
      exact ⟨hcs.1, hcs.2, hc⟩

theorem goodCatalog_header : goodCatalog [poHeaderText] = true := by
  simp [goodCatalog]

theorem inv_fileWrite (s : ProgState) (d c : String) (hs : Inv s)
    (hc : c.data.head? = some '\n') : Inv (fileWrite s d c) := by
  obtain ⟨hnodup, hgood⟩ := hs
  constructor
  · simpa [fileWrite, appendChunk_map_fst] using hnodup
  · intro d' cs hcs
    have heq : lookupDomain (fileWrite s d c).domainFiles d' =
        if d' = d then (lookupDomain s.domainFiles d').map (fun v => v ++ [c])
        else lookupDomain s.domainFiles d' := by
      simp [fileWrite, lookupDomain_appendChunk]
    rw [heq] at hcs
    by_cases hd : d' = d
    · rw [if_pos hd] at hcs
      cases hx : lookupDomain s.domainFiles d' with
      | none => rw [hx] at hcs; simp at hcs
      | some v =>
          rw [hx] at hcs
          simp only [Option.map_some', Option.some.injEq] at hcs
          subst hcs
          exact goodCatalog_append v c (hgood d' v hx) hc
    · rw [if_neg hd] at hcs
      exact hgood d' cs hcs

theorem inv_getDomainFile (s : ProgState) (d : String) (hs : Inv s) : Inv (getDomainFile s d) := by
  cases h : lookupDomain s.domainFiles d with
  | some v =>
      rw [getDomainFile_of_some s d v h]
      exact hs
  | none =>
      rw [getDomainFile_of_none s d h]
      obtain ⟨hnodup, hgood⟩ := hs
      have hne := (lookupDomain_eq_none_iff _ _).1 h
      have hmem : d ∉ s.domainFiles.map Prod.fst := by
        simp only [List.mem_map]
        rintro ⟨p, hp, rfl⟩
        exact hne p hp rfl
      constructor
      · simp only [List.map_append, List.map_cons, List.map_nil, List.nodup_append]
        refine ⟨hnodup, List.nodup_singleton d, ?_⟩
        intro a ha hb
        simp only [List.mem_singleton] at hb
        subst hb
        exact hmem ha
      · intro d' cs hcs
        simp only [lookupDomain_append] at hcs
        cases hx : lookupDomain s.domainFiles d' with
        | some w =>
            rw [hx] at hcs
            simp only [Option.orElse, Option.some.injEq] at hcs
            subst hcs
            exact hgood d' w hx
        | none =>
            rw [hx] at hcs
            simp only [Option.orElse, lookupDomain] at hcs
            by_cases hd : d = d'
            · rw [if_pos hd] at hcs
              simp only [Option.some.injEq] at hcs
              subst hcs
              exact goodCatalog_header
            · rw [if_neg hd] at hcs
              cases hcs

theorem inv_writeComments (s : ProgState) (dom f c : String) (hs : Inv s) :
    Inv (writeComments s dom f c) := by
  unfold writeComments
  exact inv_fileWrite _ _ _ (inv_fileWrite _ _ _ (inv_getDomainFile _ _ hs) rfl) rfl

theorem inv_writeContext (s : ProgState) (dom ctx : String) (hs : Inv s) :
    Inv (writeContext s dom ctx) := by
  unfold writeContext
  exact inv_fileWrite _ _ _ (inv_getDomainFile _ _ hs) rfl

theorem inv_write (s : ProgState) (dom m : String) (hs : Inv s) : Inv (write s dom m) := by
  unfold write
  exact inv_fileWrite _ _ _
    (inv_fileWrite _ _ _ (inv_fileWrite _ _ _ (inv_getDomainFile _ _ hs) rfl) rfl) rfl

theorem inv_writePlural (s : ProgState) (dom m p : String) (hs : Inv s) :
    Inv (writePlural s dom m p) := by
  unfold writePlural
  exact inv_fileWrite _ _ _
    (inv_fileWrite _ _ _
      (inv_fileWrite _ _ _
        (inv_fileWrite _ _ _ (inv_fileWrite _ _ _ (inv_getDomainFile _ _ hs) rfl) rfl) rfl) rfl) rfl

theorem inv_obind_label (c : CallExpr) (g : String → ProgState) (s' : ProgState)
    (h : obind (callLabel c) (fun lbl => Outcome.ok (g lbl)) = Outcome.ok s')
    (hg : ∀ lbl, Inv (g lbl)) : Inv s' := by
  cases hl : callLabel c with
  | ok lbl =>
      rw [hl] at h
      simp only [obind] at h
      injection h with h
      subst h
      exact hg lbl
  | fatal => rw [hl] at h; simp only [obind] at h; cases h
  | crash => rw [hl] at h; simp only [obind] at h; cases h

theorem inv_parseGet (c : CallExpr) (s s' : ProgState) (h : parseGet c s = .ok s') (hs : Inv s) :
    Inv s' := by
  unfold parseGet at h
  split at h
  · exact inv_obind_label c _ s' h
      (fun lbl => inv_write _ _ _ (inv_writeComments _ _ _ _ hs))
  · injection h with h
    subst h
    exact hs

theorem inv_parseGetN (c : CallExpr) (s s' : ProgState) (h : parseGetN c s = .ok s')
    (hs : Inv s) : Inv s' := by
  unfold parseGetN at h
  split at h
  · split at h
    · split at h
      · exact inv_obind_label c _ s' h
          (fun lbl => inv_writePlural _ _ _ _ (inv_writeComments _ _ _ _ hs))
      · injection h with h; subst h; exact hs
    · split at h
      · cases h
      · split at h
        · exact inv_obind_label c _ s' h
            (fun lbl => inv_writePlural _ _ _ _ (inv_writeComments _ _ _ _ hs))
        · injection h with h; subst h; exact hs
    · injection h with h; subst h; exact hs
  · injection h with h; subst h; exact hs

theorem inv_parseGetD (uq : String → Option String) (c : CallExpr) (s s' : ProgState)
    (h : parseGetD uq c s = .ok s') (hs : Inv s) : Inv s' := by
  unfold parseGetD at h
  split at h
  · split at h
    · cases h
    · exact inv_obind_label c _ s' h
        (fun lbl => inv_write _ _ _ (inv_writeComments _ _ _ _ hs))
  · injection h with h; subst h; exact hs

theorem inv_parseGetND (uq : String → Option String) (c : CallExpr) (s s' : ProgState)
    (h : parseGetND uq c s = .ok s') (hs : Inv s) : Inv s' := by
  unfold parseGetND at h
  split at h
  · split at h
    · cases h
    · exact inv_obind_label c _ s' h
        (fun lbl => inv_writePlural _ _ _ _ (inv_writeComments _ _ _ _ hs))
  · injection h with h; subst h; exact hs

theorem inv_parseGetC (c : CallExpr) (s s' : ProgState) (h : parseGetC c s = .ok s')
    (hs : Inv s) : Inv s' := by
  unfold parseGetC at h
  split at h
  · exact inv_obind_label c _ s' h
      (fun lbl => inv_write _ _ _ (inv_writeContext _ _ _ (inv_writeComments _ _ _ _ hs)))
  · injection h with h; subst h; exact hs

theorem inv_parseGetNC (c : CallExpr) (s s' : ProgState) (h : parseGetNC c s = .ok s')
    (hs : Inv s) : Inv s' := by
  unfold parseGetNC at h
  split at h
  · exact inv_obind_label c _ s' h
      (fun lbl => inv_writePlural _ _ _ _ (inv_writeContext _ _ _ (inv_writeComments _ _ _ _ hs)))
  · injection h with h; subst h; exact hs

theorem inv_parseGetDC (uq : String → Option String) (c : CallExpr) (s s' : ProgState)
    (h : parseGetDC uq c s = .ok s') (hs : Inv s) : Inv s' := by
  unfold parseGetDC at h
  split at h
  · split at h
    · cases h
    · exact inv_obind_label c _ s' h
        (fun lbl => inv_write _ _ _ (inv_writeContext _ _ _ (inv_writeComments _ _ _ _ hs)))
  · injection h with h; subst h; exact hs

theorem inv_parseGetNDC (uq : String → Option String) (c : CallExpr) (s s' : ProgState)
    (h : parseGetNDC uq c s = .ok s') (hs : Inv s) : Inv s' := by
  unfold parseGetNDC at h
  split at h
  · split at h
    · cases h
    · exact inv_obind_label c _ s' h
        (fun lbl =>
          inv_writePlural _ _ _ _ (inv_writeContext _ _ _ (inv_writeComments _ _ _ _ hs)))
  · injection h with h; subst h; exact hs

theorem inv_inspectCallExpr (uq : String → Option String) (c : CallExpr) (s s' : ProgState)
    (h : inspectCallExpr uq c s = .ok s') (hs : Inv s) : Inv s' := by
  unfold inspectCallExpr at h
  split at h
  · split at h
    · exact inv_parseGet _ _ _ h hs
    · exact inv_parseGetN _ _ _ h hs
    · exact inv_parseGetD _ _ _ _ h hs
    · exact inv_parseGetND _ _ _ _ h hs
    · exact inv_parseGetC _ _ _ h hs
    · exact inv_parseGetNC _ _ _ h hs
    · exact inv_parseGetDC _ _ _ _ h hs
    · exact inv_parseGetNDC _ _ _ _ h hs
    · injection h with h; subst h; exact hs
  · injection h with h; subst h; exact hs

theorem inv_processCalls (uq : String → Option String) (calls : List CallExpr)
    (s s' : ProgState) (h : processCalls uq calls s = .ok s') (hs : Inv s) : Inv s' := by
  induction calls generalizing s with
  | nil =>
      unfold processCalls at h
      injection h with h
      subst h
      exact hs
  | cons c rest ih =>
      unfold processCalls at h
      cases hx : inspectCallExpr uq c s with
      | ok s1 =>
          rw [hx] at h
          simp only [obind] at h
          exact ih s1 h (inv_inspectCallExpr uq c s s1 hx hs)
      | fatal => rw [hx] at h; simp only [obind] at h; cases h
      | crash => rw [hx] at h; simp only [obind] at h; cases h

theorem inv_parseFile (uq : String → Option String) (f : SourceFile) (s s' : ProgState)
    (h : parseFile uq f s = .ok s') (hs : Inv s) : Inv s' := by
  unfold parseFile at h
  exact inv_processCalls _ _ _ _ h hs

theorem inv_parseDir (uq : String → Option String) (files : List SourceFile)
    (s s' : ProgState) (h : parseDir uq files s = .ok s') (hs : Inv s) : Inv s' := by
  induction files generalizing s with
  | nil =>
      unfold parseDir at h
      injection h with h
      subst h
      exact hs
  | cons f rest ih =>
      unfold parseDir at h
      cases hx : parseFile uq f s with
      | ok s1 =>
          rw [hx] at h
          simp only [obind] at h
          exact ih s1 h (inv_parseFile uq f s s1 hx hs)
      | fatal => rw [hx] at h; simp only [obind] at h; cases h
      | crash => rw [hx] at h; simp only [obind] at h; cases h

theorem inv_initialState : Inv initialState := by
  constructor
  · simp [initialState]
  · intro d cs hcs
    simp [initialState, lookupDomain] at hcs


theorem parseGet_skip (c : CallExpr) (s : ProgState) (hg : stringGuard "Get" c.args = false) :
    parseGet c s = .ok s := by
  unfold parseGet
  split
  · rename_i heq
    rw [heq] at hg
    simp [stringGuard, isStringLit] at hg
  · rfl

theorem parseGetN_skip (c : CallExpr) (s : ProgState) (hg : stringGuard "GetN" c.args = false) :
    parseGetN c s = .ok s := by
  unfold parseGetN
  split
  · rename_i heq
    rw [heq] at hg
    simp [stringGuard, isStringLit] at hg
  · rfl

theorem parseGetD_skip (uq : String → Option String) (c : CallExpr) (s : ProgState)
    (hg : stringGuard "GetD" c.args = false) : parseGetD uq c s = .ok s := by
  unfold parseGetD
  split
  · rename_i heq
    rw [heq] at hg
    simp [stringGuard, isStringLit] at hg
  · rfl

theorem parseGetND_skip (uq : String → Option String) (c : CallExpr) (s : ProgState)
    (hg : stringGuard "GetND" c.args = false) : parseGetND uq c s = .ok s := by
  unfold parseGetND
  split
  · rename_i heq
    rw [heq] at hg
    simp [stringGuard, isStringLit] at hg
  · rfl

theorem parseGetC_skip (c : CallExpr) (s : ProgState) (hg : stringGuard "GetC" c.args = false) :
    parseGetC c s = .ok s := by
  unfold parseGetC
  split
  · rename_i heq
    rw [heq] at hg
    simp [stringGuard, isStringLit] at hg
  · rfl

theorem parseGetNC_skip (c : CallExpr) (s : ProgState) (hg : stringGuard "GetNC" c.args = false) :
    parseGetNC c s = .ok s := by
  unfold parseGetNC
  split
  · rename_i heq
    rw [heq] at hg
    simp [stringGuard, isStringLit] at hg
  · rfl

theorem parseGetDC_skip (uq : String → Option String) (c : CallExpr) (s : ProgState)
    (hg : stringGuard "GetDC" c.args = false) : parseGetDC uq c s = .ok s := by
  unfold parseGetDC
  split
  · rename_i heq
    rw [heq] at hg
    simp [stringGuard, isStringLit] at hg
  · rfl

theorem parseGetNDC_skip (uq : String → Option String) (c : CallExpr) (s : ProgState)
    (hg : stringGuard "GetNDC" c.args = false) : parseGetNDC uq c s = .ok s := by
  unfold parseGetNDC
  split
  · rename_i heq
    rw [heq] at hg
    simp [stringGuard, isStringLit] at hg
  · rfl

theorem inspect_skip (uq : String → Option String) (c : CallExpr) (recv : Expr) (sel : String)
    (s : ProgState) (hF : c.Fun = .selector recv sel) (hg : stringGuard sel c.args = false) :
    inspectCallExpr uq c s = .ok s := by
  unfold inspectCallExpr
  rw [hF]
  split
  · rename_i a b heq
    injection heq with h1 h2
    subst h1
    subst h2
    split
    · exact parseGet_skip _ _ hg
    · exact parseGetN_skip _ _ hg
    · exact parseGetD_skip _ _ _ hg
    · exact parseGetND_skip _ _ _ hg
    · exact parseGetC_skip _ _ hg
    · exact parseGetNC_skip _ _ hg
    · exact parseGetDC_skip _ _ _ hg
    · exact parseGetNDC_skip _ _ _ hg
    · rfl
  · rfl

theorem join_cons (a : String) (l : List String) : String.join (a :: l) = a ++ String.join l := by
  rw [String.join_eq, String.join_eq]
  simp only [List.map_cons, List.flatten_cons]
  rfl

theorem processCalls_append (uq : String → Option String) (xs ys : List CallExpr)
    (s : ProgState) :
    processCalls uq (xs ++ ys) s = obind (processCalls uq xs s) (processCalls uq ys) := by
  induction xs generalizing s with
  | nil => simp [processCalls, obind]
  | cons c rest ih =>
      simp only [List.cons_append, processCalls]
      cases hx : inspectCallExpr uq c s <;> simp [obind, ih]

theorem parseDir_append (uq : String → Option String) (fs1 fs2 : List SourceFile)
    (s : ProgState) :
    parseDir uq (fs1 ++ fs2) s = obind (parseDir uq fs1 s) (parseDir uq fs2) := by
  induction fs1 generalizing s with
  | nil => simp [parseDir, obind]
  | cons f rest ih =>
      simp only [List.cons_append, parseDir]
      cases hx : parseFile uq f s <;> simp [obind, ih]

theorem parseGet_emit (s : ProgState) (r : String) (o : Option ObjKind) (v : String)
    (rest : List Expr) (p : Position) :
    parseGet ⟨.selector (.ident r o) "Get", .basicLit .string v :: rest, p⟩ s =
      .ok (write (writeComments s s.currentDomain (posString p) (r ++ "." ++ "Get"))
        s.currentDomain v) := rfl

theorem parseGetN_emit_int (s : ProgState) (r : String) (o : Option ObjKind)
    (v0 v1 w : String) (rest : List Expr) (p : Position) :
    parseGetN ⟨.selector (.ident r o) "GetN",
        .basicLit .string v0 :: .basicLit .string v1 :: .basicLit .int w :: rest, p⟩ s =
      .ok (writePlural (writeComments s s.currentDomain (posString p) (r ++ "." ++ "GetN"))
        s.currentDomain v0 v1) := rfl

theorem parseGetC_emit (s : ProgState) (r : String) (o : Option ObjKind)
    (v0 v1 : String) (rest : List Expr) (p : Position) :
    parseGetC ⟨.selector (.ident r o) "GetC",
        .basicLit .string v0 :: .basicLit .string v1 :: rest, p⟩ s =
      .ok (write (writeContext
            (writeComments s s.currentDomain (posString p) (r ++ "." ++ "GetC"))
            s.currentDomain v1)
        s.currentDomain v0) := rfl

theorem parseGetNC_emit (s : ProgState) (r : String) (o : Option ObjKind)
    (v0 v1 v3 : String) (e : Expr) (rest : List Expr) (p : Position) :
    parseGetNC ⟨.selector (.ident r o) "GetNC",
        .basicLit .string v0 :: .basicLit .string v1 :: e :: .basicLit .string v3 :: rest, p⟩ s =
      .ok (writePlural (writeContext
            (writeComments s s.currentDomain (posString p) (r ++ "." ++ "GetNC"))
            s.currentDomain v3)
        s.currentDomain v0 v1) := rfl

theorem parseGetD_emit (uq : String → Option String) (s : ProgState) (r : String)
    (o : Option ObjKind) (v0 v1 : String) (rest : List Expr) (p : Position) (dom : String)
    (h : uq v0 = some dom) :
    parseGetD uq ⟨.selector (.ident r o) "GetD",
        .basicLit .string v0 :: .basicLit .string v1 :: rest, p⟩ s =
      .ok (write (writeComments s dom (posString p) (r ++ "." ++ "GetD")) dom v1) := by
  simp [parseGetD, h, obind, callLabel]

theorem parseGetND_emit (uq : String → Option String) (s : ProgState) (r : String)
    (o : Option ObjKind) (v0 v1 v2 : String) (rest : List Expr) (p : Position) (dom : String)
    (h : uq v0 = some dom) :
    parseGetND uq ⟨.selector (.ident r o) "GetND",
        .basicLit .string v0 :: .basicLit .string v1 :: .basicLit .string v2 :: rest, p⟩ s =
      .ok (writePlural (writeComments s dom (posString p) (r ++ "." ++ "GetND")) dom v1 v2) := by
  simp [parseGetND, h, obind, callLabel]

theorem parseGetDC_emit (uq : String → Option String) (s : ProgState) (r : String)
    (o : Option ObjKind) (v0 v1 v2 : String) (rest : List Expr) (p : Position) (dom : String)
    (h : uq v0 = some dom) :
    parseGetDC uq ⟨.selector (.ident r o) "GetDC",
        .basicLit .string v0 :: .basicLit .string v1 :: .basicLit .string v2 :: rest, p⟩ s =
      .ok (write (writeContext (writeComments s dom (posString p) (r ++ "." ++ "GetDC")) dom v2)
        dom v1) := by
  simp [parseGetDC, h, obind, callLabel]

theorem parseGetNDC_emit (uq : String → Option String) (s : ProgState) (r : String)
    (o : Option ObjKind) (v0 v1 v2 v4 : String) (e : Expr) (rest : List Expr) (p : Position)
    (dom : String) (h : uq v0 = some dom) :
    parseGetNDC uq ⟨.selector (.ident r o) "GetNDC",
        .basicLit .string v0 :: .basicLit .string v1 :: .basicLit .string v2 :: e ::
          .basicLit .string v4 :: rest, p⟩ s =
      .ok (writePlural (writeContext (writeComments s dom (posString p) (r ++ "." ++ "GetNDC"))
            dom v4)
        dom v1 v2) := by
  simp [parseGetNDC, h, obind, callLabel]

theorem parseGetD_fatal (uq : String → Option String) (s : ProgState) (F : FunExpr)
    (v0 v1 : String) (rest : List Expr) (p : Position) (h : uq v0 = none) :
    parseGetD uq ⟨F, .basicLit .string v0 :: .basicLit .string v1 :: rest, p⟩ s =
      Outcome.fatal := by
  simp [parseGetD, h]

theorem parseGetND_fatal (uq : String → Option String) (s : ProgState) (F : FunExpr)
    (v0 v1 v2 : String) (rest : List Expr) (p : Position) (h : uq v0 = none) :
    parseGetND uq ⟨F, .basicLit .string v0 :: .basicLit .string v1 :: .basicLit .string v2 ::
        rest, p⟩ s = Outcome.fatal := by
  simp [parseGetND, h]

theorem parseGetDC_fatal (uq : String → Option String) (s : ProgState) (F : FunExpr)
    (v0 v1 v2 : String) (rest : List Expr) (p : Position) (h : uq v0 = none) :
    parseGetDC uq ⟨F, .basicLit .string v0 :: .basicLit .string v1 :: .basicLit .string v2 ::
        rest, p⟩ s = Outcome.fatal := by
  simp [parseGetDC, h]

theorem parseGetNDC_fatal (uq : String → Option String) (s : ProgState) (F : FunExpr)
    (v0 v1 v2 v4 : String) (e : Expr) (rest : List Expr) (p : Position) (h : uq v0 = none) :
    parseGetNDC uq ⟨F, .basicLit .string v0 :: .basicLit .string v1 :: .basicLit .string v2 ::
        e :: .basicLit .string v4 :: rest, p⟩ s = Outcome.fatal := by
  simp [parseGetNDC, h]

theorem parseGet_crash (s : ProgState) (recv : Expr) (v : String) (rest : List Expr)
    (p : Position) (h : isIdentExpr recv = false) :
    parseGet ⟨.selector recv "Get", .basicLit .string v :: rest, p⟩ s = Outcome.crash := by
  cases recv with
  | basicLit k w => rfl
  | ident n o => simp [isIdentExpr] at h
  | otherExpr => rfl


theorem poHeader_eq_spec : poHeaderText = specHeaderBlock ++ "\n\t" := rfl

set_option maxRecDepth 100000 in
/-- C1 counterexample: the same two-file package processed in the two
map-range orders that the Go language permits for pkg.Files yields two
different default-domain catalogs, so byte-identical output across runs is
not guaranteed in directory mode. -/
theorem claim_C1_counterexample :
    runCatalog (parseDir simpleUnquote [fileA, fileB] initialState) "default" ≠ none ∧
    runCatalog (parseDir simpleUnquote [fileB, fileA] initialState) "default" ≠ none ∧
    runCatalog (parseDir simpleUnquote [fileA, fileB] initialState) "default" ≠
      runCatalog (parseDir simpleUnquote [fileB, fileA] initialState) "default" :=
  ⟨by decide, by decide, by decide⟩

/-- C1 amended: within one run catalog entries are appended in discovery
order — processing a call list or a file list is compositional, so the
output is a function of the traversed sequence — and hence two runs that
iterate the files of the package in the same order produce identical
catalogs; the order in which parseDir iterates pkg.Files is a Go map-range
order, which the language leaves unspecified, so in directory mode the
cross-run order (and thus byte-identical output) is not guaranteed. -/
theorem claim_C1_amended :
    (∀ uq : String → Option String, ∀ xs ys : List CallExpr, ∀ s : ProgState,
        processCalls uq (xs ++ ys) s = obind (processCalls uq xs s) (processCalls uq ys)) ∧
    (∀ uq : String → Option String, ∀ fs1 fs2 : List SourceFile, ∀ s : ProgState,
        parseDir uq (fs1 ++ fs2) s = obind (parseDir uq fs1 s) (parseDir uq fs2)) :=
  ⟨processCalls_append, parseDir_append⟩

set_option maxRecDepth 100000 in
/-- C2 counterexample: a GetNC call whose count argument (position 2) is
neither an integer literal nor an identifier still produces a full catalog
entry — parseGetNC never inspects the count argument — refuting the claim
that such a call site is skipped. -/
theorem claim_C2_counterexample :
    runCatalog (processCalls simpleUnquote [cGetNCBad] initialState) "default" =
      some (poHeaderText ++
        "\n#: f.go:7\n#. t.GetNC\nmsgctxt \"fruit\"\nmsgid \"%d apple\"\nmsgid_plural \"%d apples\"\nmsgstr[0] \"\"\nmsgstr[1] \"\"\n") := by
  decide

/-- C2 amended: only GetN constrains its count argument: a GetN call whose
position-2 argument is a literal of non-integer kind, an identifier whose
resolved declaration is neither a variable nor a constant, or any other
expression shape, produces no entry; GetNC and GetNDC never inspect their
count argument (positions 2 and 3 respectively) and emit their entry for
any count-argument shape whatsoever. -/
theorem claim_C2_amended :
    (∀ s : ProgState, ∀ F : FunExpr, ∀ p : Position, ∀ v0 v1 w : String, ∀ k : LitKind,
      ∀ rest : List Expr, k ≠ LitKind.int →
        parseGetN ⟨F, .basicLit .string v0 :: .basicLit .string v1 :: .basicLit k w :: rest, p⟩
          s = Outcome.ok s) ∧
    (∀ s : ProgState, ∀ F : FunExpr, ∀ p : Position, ∀ v0 v1 nm : String, ∀ k : ObjKind,
      ∀ rest : List Expr, k ≠ ObjKind.var → k ≠ ObjKind.con →
        parseGetN ⟨F, .basicLit .string v0 :: .basicLit .string v1 :: .ident nm (some k) :: rest,
          p⟩ s = Outcome.ok s) ∧
    (∀ s : ProgState, ∀ F : FunExpr, ∀ p : Position, ∀ v0 v1 : String, ∀ rest : List Expr,
        parseGetN ⟨F, .basicLit .string v0 :: .basicLit .string v1 :: .otherExpr :: rest, p⟩ s =
          Outcome.ok s) ∧
    (∀ s : ProgState, ∀ r : String, ∀ o : Option ObjKind, ∀ p : Position,
      ∀ v0 v1 v3 : String, ∀ e : Expr, ∀ rest : List Expr,
        parseGetNC ⟨.selector (.ident r o) "GetNC",
            .basicLit .string v0 :: .basicLit .string v1 :: e :: .basicLit .string v3 :: rest,
            p⟩ s =
          Outcome.ok (writePlural (writeContext
              (writeComments s s.currentDomain (posString p) (r ++ "." ++ "GetNC"))
              s.currentDomain v3)
            s.currentDomain v0 v1)) ∧
    (∀ uq : String → Option String, ∀ s : ProgState, ∀ r : String, ∀ o : Option ObjKind,
      ∀ p : Position, ∀ v0 v1 v2 v4 : String, ∀ e : Expr, ∀ rest : List Expr, ∀ dom : String,
        uq v0 = some dom →
        parseGetNDC uq ⟨.selector (.ident r o) "GetNDC",
            .basicLit .string v0 :: .basicLit .string v1 :: .basicLit .string v2 :: e ::
              .basicLit .string v4 :: rest, p⟩ s =
          Outcome.ok (writePlural (writeContext
              (writeComments s dom (posString p) (r ++ "." ++ "GetNDC")) dom v4)
            dom v1 v2)) := by
  refine ⟨?_, ?_, ?_, ?_, ?_⟩
  · intro s F p v0 v1 w k rest hk
    simp [parseGetN, hk]
  · intro s F p v0 v1 nm k rest hk1 hk2
    simp [parseGetN, hk1, hk2]
  · intro s F p v0 v1 rest
    rfl
  · intro s r o p v0 v1 v3 e rest
    exact parseGetNC_emit s r o v0 v1 v3 e rest p
  · intro uq s r o p v0 v1 v2 v4 e rest dom h
    exact parseGetNDC_emit uq s r o v0 v1 v2 v4 e rest p dom h

set_option maxRecDepth 100000 in
/-- C2 amended, witness at concrete inputs. -/
theorem claim_C2_amended_witness :
    (LitKind.string ≠ LitKind.int ∧
      parseGetN ⟨.selector (.ident "t" none) "GetN",
        [.basicLit .string "\"a\"", .basicLit .string "\"b\"", .basicLit .string "\"c\""],
        ⟨"f.go", 1⟩⟩ initialState = Outcome.ok initialState) ∧
    (ObjKind.otherKind ≠ ObjKind.var ∧ ObjKind.otherKind ≠ ObjKind.con ∧
      parseGetN ⟨.selector (.ident "t" none) "GetN",
        [.basicLit .string "\"a\"", .basicLit .string "\"b\"", .ident "f" (some .otherKind)],
        ⟨"f.go", 2⟩⟩ initialState = Outcome.ok initialState) ∧
    (simpleUnquote "\"app\"" = some "app" ∧
      parseGetNDC simpleUnquote ⟨.selector (.ident "t" none) "GetNDC",
        [.basicLit .string "\"app\"", .basicLit .string "\"x\"", .basicLit .string "\"y\"",
         .otherExpr, .basicLit .string "\"c\""], ⟨"f.go", 3⟩⟩ initialState =
        Outcome.ok (writePlural (writeContext
            (writeComments initialState "app" (posString ⟨"f.go", 3⟩) ("t" ++ "." ++ "GetNDC"))
            "app" "\"c\"")
          "app" "\"x\"" "\"y\"")) :=
  ⟨⟨by decide,
    claim_C2_amended.1 initialState _ _ "\"a\"" "\"b\"" "\"c\"" LitKind.string [] (by decide)⟩,
   ⟨by decide, by decide,
    claim_C2_amended.2.1 initialState _ _ "\"a\"" "\"b\"" "f" ObjKind.otherKind []
      (by decide) (by decide)⟩,
   ⟨by decide,
    claim_C2_amended.2.2.2.2 simpleUnquote initialState "t" none ⟨"f.go", 3⟩
      "\"app\"" "\"x\"" "\"y\"" "\"c\"" Expr.otherExpr [] "app" (by decide)⟩⟩

set_option maxRecDepth 100000 in
/-- C3 counterexample: a GetN call whose count argument is an identifier
with no resolved declaration (nil Obj) makes the matcher dereference a nil
pointer: the run aborts with a panic instead of skipping the call site and
continuing traversal. -/
theorem claim_C3_counterexample :
    processCalls simpleUnquote [cGetNNil] initialState = Outcome.crash := by
  decide

/-- C3 amended: a call site whose method name matches one of the 8 variants
but whose required string positions do not all hold string literals yields
zero records, no write, no diagnostic and no abort, and traversal continues
with the next call site; of the count-argument requirements, only the GetN
check exists, it skips silently only for shapes it can classify, and a GetN
count identifier carrying no resolved declaration crashes the run. -/
theorem claim_C3_amended :
    (∀ uq : String → Option String, ∀ c : CallExpr, ∀ recv : Expr, ∀ sel : String,
      ∀ s : ProgState, ∀ rest : List CallExpr,
        c.Fun = FunExpr.selector recv sel → knownVariant sel = true →
        stringGuard sel c.args = false →
        inspectCallExpr uq c s = Outcome.ok s ∧
        processCalls uq (c :: rest) s = processCalls uq rest s) ∧
    (∀ s : ProgState, ∀ F : FunExpr, ∀ p : Position, ∀ v0 v1 nm : String, ∀ rest : List Expr,
        parseGetN ⟨F, .basicLit .string v0 :: .basicLit .string v1 :: .ident nm none :: rest,
          p⟩ s = Outcome.crash) := by
  constructor
  · intro uq c recv sel s rest hF hk hg
    have hskip := inspect_skip uq c recv sel s hF hg
    refine ⟨hskip, ?_⟩
    have hstep : processCalls uq (c :: rest) s =
        obind (inspectCallExpr uq c s) (processCalls uq rest) := rfl
    rw [hstep, hskip]
    rfl
  · intro s F p v0 v1 nm rest
    rfl

set_option maxRecDepth 100000 in
/-- C3 amended, witness at concrete inputs: a Get call with a non-literal
argument is skipped and traversal continues; a GetN call with an unresolved
count identifier crashes. -/
theorem claim_C3_amended_witness :
    ((⟨.selector (.ident "t" none) "Get", [.ident "x" (some .var)], ⟨"f.go", 1⟩⟩ :
        CallExpr).Fun = FunExpr.selector (.ident "t" none) "Get" ∧
      knownVariant "Get" = true ∧
      stringGuard "Get" [.ident "x" (some .var)] = false ∧
      inspectCallExpr simpleUnquote
        ⟨.selector (.ident "t" none) "Get", [.ident "x" (some .var)], ⟨"f.go", 1⟩⟩
        initialState = Outcome.ok initialState ∧
      processCalls simpleUnquote
        [⟨.selector (.ident "t" none) "Get", [.ident "x" (some .var)], ⟨"f.go", 1⟩⟩]
        initialState = processCalls simpleUnquote [] initialState) ∧
    parseGetN ⟨.selector (.ident "t" none) "GetN",
      [.basicLit .string "\"one\"", .basicLit .string "\"many\"", .ident "n" none],
      ⟨"f.go", 9⟩⟩ initialState = Outcome.crash :=
  ⟨⟨by decide, by decide, by decide,
    (claim_C3_amended.1 simpleUnquote _ (.ident "t" none) "Get" initialState []
      rfl (by decide) (by decide)).1,
    (claim_C3_amended.1 simpleUnquote _ (.ident "t" none) "Get" initialState []
      rfl (by decide) (by decide)).2⟩,
   claim_C3_amended.2 initialState _ _ "\"one\"" "\"many\"" "n" []⟩

/-- C4: the first resolve of a domain name registers the stream and writes
the header once; a later resolve of a registered name returns the state
unchanged (no second header, cached stream); in every state reached by a
full run from the initial state, no two domain names share a stream (the
key list is duplicate-free) and every open catalog consists of the header
chunk first followed only by newline-led entry chunks — the header appears
exactly once, before any entry. -/
theorem claim_C4_header_once :
    (∀ s : ProgState, ∀ d : String, ∀ v : List String,
        lookupDomain s.domainFiles d = some v → getDomainFile s d = s) ∧
    (∀ s : ProgState, ∀ d : String,
        lookupDomain s.domainFiles d = none →
        getDomainFile s d = { s with domainFiles := s.domainFiles ++ [(d, [poHeaderText])] }) ∧
    (∀ uq : String → Option String, ∀ files : List SourceFile, ∀ s' : ProgState,
        parseDir uq files initialState = Outcome.ok s' →
        (s'.domainFiles.map Prod.fst).Nodup ∧
        ∀ d cs, lookupDomain s'.domainFiles d = some cs → goodCatalog cs = true) := by
  refine ⟨getDomainFile_of_some, getDomainFile_of_none, ?_⟩
  intro uq files s' h
  exact inv_parseDir uq files initialState s' h inv_initialState

set_option maxRecDepth 100000 in
/-- C4 witness at concrete inputs: resolving a registered domain is the
identity; resolving a fresh domain appends one stream holding exactly the
header; a one-file run yields a duplicate-free registry whose default
catalog is well formed. -/
theorem claim_C4_header_once_witness :
    getDomainFile ⟨[("default", [poHeaderText])], "default", ""⟩ "default" =
      ⟨[("default", [poHeaderText])], "default", ""⟩ ∧
    getDomainFile initialState "app" =
      { initialState with domainFiles := initialState.domainFiles ++ [("app", [poHeaderText])] } ∧
    (stWitA.domainFiles.map Prod.fst).Nodup ∧
    goodCatalog [poHeaderText, "\n#: a.go:3", "\n#. t.Get", "\nmsgid \"alpha\"",
      "\nmsgstr \"\"", "\n"] = true :=
  ⟨claim_C4_header_once.1 _ "default" [poHeaderText] (by decide),
   claim_C4_header_once.2.1 initialState "app" (by decide),
   (claim_C4_header_once.2.2 simpleUnquote [fileA] stWitA (by decide)).1,
   (claim_C4_header_once.2.2 simpleUnquote [fileA] stWitA (by decide)).2 "default" _ (by decide)⟩

set_option maxRecDepth 100000 in
/-- C5 counterexample: after the header lines and the blank line the program
also writes a line holding a single tab character (the indentation that
precedes the closing backtick of the Go raw string), so the catalog does not
consist of the specified header block, one blank line and then immediately
the first entry comment lines. -/
theorem claim_C5_counterexample :
    runCatalog (processCalls simpleUnquote [cGetHi] initialState) "default" =
      some ((specHeaderBlock ++ "\n\t") ++
        "\n#: f.go:1\n#. t.Get\nmsgid \"hi\"\nmsgstr \"\"\n") ∧
    runCatalog (processCalls simpleUnquote [cGetHi] initialState) "default" ≠
      some (specHeaderBlock ++ "\n#: f.go:1\n#. t.Get\nmsgid \"hi\"\nmsgstr \"\"\n") :=
  ⟨by decide, by decide⟩

/-- C5 amended: every open catalog of a finished run begins with the eight
specified header lines followed by one blank line and a line holding a
single tab, and only then the entries: the first chunk of the stream is
exactly the spec header block with the trailing blank line and tab, and the
file contents are that prefix followed by the remaining entry chunks. -/
theorem claim_C5_amended :
    ∀ uq : String → Option String, ∀ files : List SourceFile, ∀ s' : ProgState,
      ∀ d : String, ∀ cs : List String,
        parseDir uq files initialState = Outcome.ok s' →
        lookupDomain s'.domainFiles d = some cs →
        cs.head? = some (specHeaderBlock ++ "\n\t") ∧
        String.join cs = (specHeaderBlock ++ "\n\t") ++ String.join cs.tail := by
  intro uq files s' d cs h hcs
  have hinv := inv_parseDir uq files initialState s' h inv_initialState
  have hgood := hinv.2 d cs hcs
  cases cs with
  | nil => simp [goodCatalog] at hgood
  | cons first rest =>
      simp only [goodCatalog, Bool.and_eq_true, beq_iff_eq] at hgood
      obtain ⟨h1, _⟩ := hgood
      subst h1
      refine ⟨rfl, ?_⟩
      rw [join_cons, List.tail_cons, poHeader_eq_spec]

set_option maxRecDepth 100000 in
/-- C5 amended, witness: the one-call run, instantiated at the default
domain. -/
theorem claim_C5_amended_witness :
    [poHeaderText, "\n#: a.go:3", "\n#. t.Get", "\nmsgid \"alpha\"", "\nmsgstr \"\"",
        "\n"].head? = some (specHeaderBlock ++ "\n\t") ∧
    String.join [poHeaderText, "\n#: a.go:3", "\n#. t.Get", "\nmsgid \"alpha\"",
        "\nmsgstr \"\"", "\n"] =
      (specHeaderBlock ++ "\n\t") ++
        String.join ["\n#: a.go:3", "\n#. t.Get", "\nmsgid \"alpha\"", "\nmsgstr \"\"", "\n"] :=
  claim_C5_amended simpleUnquote [fileA] stWitA "default" _ (by decide) (by decide)


/-- C6: for every produced Extraction Record the writer appends to the
resolved domain stream, in this order: a blank-line separator, one location
comment, one call-label comment, the msgctxt line when the variant has a
context, then msgid/msgid_plural/msgstr[0]/msgstr[1] for plural records or
msgid/msgstr for singular ones, each captured literal written verbatim with
its original quotes; shown for the four record shapes through parseGet,
parseGetC, parseGetN and parseGetNC. -/
theorem claim_C6_writer_layout :
    (∀ s : ProgState, ∀ r : String, ∀ o : Option ObjKind, ∀ v : String, ∀ rest : List Expr,
      ∀ p : Position,
        parseGet ⟨.selector (.ident r o) "Get", .basicLit .string v :: rest, p⟩ s =
          Outcome.ok (write (writeComments s s.currentDomain (posString p) (r ++ "." ++ "Get"))
            s.currentDomain v) ∧
        lookupDomain (write (writeComments s s.currentDomain (posString p) (r ++ "." ++ "Get"))
            s.currentDomain v).domainFiles s.currentDomain =
          some (afterHeader s s.currentDomain ++
            ["\n#: " ++ posString p, "\n#. " ++ (r ++ "." ++ "Get"),
             "\nmsgid " ++ v, "\nmsgstr \"\"", "\n"])) ∧
    (∀ s : ProgState, ∀ r : String, ∀ o : Option ObjKind, ∀ v0 v1 : String, ∀ rest : List Expr,
      ∀ p : Position,
        parseGetC ⟨.selector (.ident r o) "GetC",
            .basicLit .string v0 :: .basicLit .string v1 :: rest, p⟩ s =
          Outcome.ok (write (writeContext
              (writeComments s s.currentDomain (posString p) (r ++ "." ++ "GetC"))
              s.currentDomain v1)
            s.currentDomain v0) ∧
        lookupDomain (write (writeContext
              (writeComments s s.currentDomain (posString p) (r ++ "." ++ "GetC"))
              s.currentDomain v1)
            s.currentDomain v0).domainFiles s.currentDomain =
          some (afterHeader s s.currentDomain ++
            ["\n#: " ++ posString p, "\n#. " ++ (r ++ "." ++ "GetC"),
             "\nmsgctxt " ++ v1, "\nmsgid " ++ v0, "\nmsgstr \"\"", "\n"])) ∧
    (∀ s : ProgState, ∀ r : String, ∀ o : Option ObjKind, ∀ v0 v1 w : String,
      ∀ rest : List Expr, ∀ p : Position,
        parseGetN ⟨.selector (.ident r o) "GetN",
            .basicLit .string v0 :: .basicLit .string v1 :: .basicLit .int w :: rest, p⟩ s =
          Outcome.ok (writePlural
            (writeComments s s.currentDomain (posString p) (r ++ "." ++ "GetN"))
            s.currentDomain v0 v1) ∧
        lookupDomain (writePlural
            (writeComments s s.currentDomain (posString p) (r ++ "." ++ "GetN"))
            s.currentDomain v0 v1).domainFiles s.currentDomain =
          some (afterHeader s s.currentDomain ++
            ["\n#: " ++ posString p, "\n#. " ++ (r ++ "." ++ "GetN"),
             "\nmsgid " ++ v0, "\nmsgid_plural " ++ v1,
             "\nmsgstr[0] \"\"", "\nmsgstr[1] \"\"", "\n"])) ∧
    (∀ s : ProgState, ∀ r : String, ∀ o : Option ObjKind, ∀ v0 v1 v3 : String, ∀ e : Expr,
      ∀ rest : List Expr, ∀ p : Position,
        parseGetNC ⟨.selector (.ident r o) "GetNC",
            .basicLit .string v0 :: .basicLit .string v1 :: e :: .basicLit .string v3 :: rest,
            p⟩ s =
          Outcome.ok (writePlural (writeContext
              (writeComments s s.currentDomain (posString p) (r ++ "." ++ "GetNC"))
              s.currentDomain v3)
            s.currentDomain v0 v1) ∧
        lookupDomain (writePlural (writeContext
              (writeComments s s.currentDomain (posString p) (r ++ "." ++ "GetNC"))
              s.currentDomain v3)
            s.currentDomain v0 v1).domainFiles s.currentDomain =
          some (afterHeader s s.currentDomain ++
            ["\n#: " ++ posString p, "\n#. " ++ (r ++ "." ++ "GetNC"),
             "\nmsgctxt " ++ v3, "\nmsgid " ++ v0, "\nmsgid_plural " ++ v1,
             "\nmsgstr[0] \"\"", "\nmsgstr[1] \"\"", "\n"])) := by
  refine ⟨?_, ?_, ?_, ?_⟩
  · intro s r o v rest p
    exact ⟨parseGet_emit s r o v rest p, entry_plain s s.currentDomain (posString p) _ v⟩
  · intro s r o v0 v1 rest p
    exact ⟨parseGetC_emit s r o v0 v1 rest p,
      entry_ctx s s.currentDomain (posString p) _ v1 v0⟩
  · intro s r o v0 v1 w rest p
    exact ⟨parseGetN_emit_int s r o v0 v1 w rest p,
      entry_plural s s.currentDomain (posString p) _ v0 v1⟩
  · intro s r o v0 v1 v3 e rest p
    exact ⟨parseGetNC_emit s r o v0 v1 v3 e rest p,
      entry_ctx_plural s s.currentDomain (posString p) _ v3 v0 v1⟩

/-- C7: for a fully matched GetD, GetND, GetDC or GetNDC call (all required
positions holding string literals, unquote of the position-0 literal
succeeding with dom), the record is written to the catalog of dom with its
msgid the verbatim literal of position 1, the plural msgid (GetND, GetNDC)
the verbatim literal of position 2, and the context literal of GetDC and
GetNDC taken from positions 2 and 4 respectively. -/
theorem claim_C7_domain_variants :
    (∀ uq : String → Option String, ∀ s : ProgState, ∀ r : String, ∀ o : Option ObjKind,
      ∀ v0 v1 : String, ∀ rest : List Expr, ∀ p : Position, ∀ dom : String,
        uq v0 = some dom →
        parseGetD uq ⟨.selector (.ident r o) "GetD",
            .basicLit .string v0 :: .basicLit .string v1 :: rest, p⟩ s =
          Outcome.ok (write (writeComments s dom (posString p) (r ++ "." ++ "GetD")) dom v1) ∧
        lookupDomain (write (writeComments s dom (posString p) (r ++ "." ++ "GetD"))
            dom v1).domainFiles dom =
          some (afterHeader s dom ++
            ["\n#: " ++ posString p, "\n#. " ++ (r ++ "." ++ "GetD"),
             "\nmsgid " ++ v1, "\nmsgstr \"\"", "\n"])) ∧
    (∀ uq : String → Option String, ∀ s : ProgState, ∀ r : String, ∀ o : Option ObjKind,
      ∀ v0 v1 v2 : String, ∀ rest : List Expr, ∀ p : Position, ∀ dom : String,
        uq v0 = some dom →
        parseGetND uq ⟨.selector (.ident r o) "GetND",
            .basicLit .string v0 :: .basicLit .string v1 :: .basicLit .string v2 :: rest, p⟩ s =
          Outcome.ok (writePlural (writeComments s dom (posString p) (r ++ "." ++ "GetND"))
            dom v1 v2) ∧
        lookupDomain (writePlural (writeComments s dom (posString p) (r ++ "." ++ "GetND"))
            dom v1 v2).domainFiles dom =
          some (afterHeader s dom ++
            ["\n#: " ++ posString p, "\n#. " ++ (r ++ "." ++ "GetND"),
             "\nmsgid " ++ v1, "\nmsgid_plural " ++ v2,
             "\nmsgstr[0] \"\"", "\nmsgstr[1] \"\"", "\n"])) ∧
    (∀ uq : String → Option String, ∀ s : ProgState, ∀ r : String, ∀ o : Option ObjKind,
      ∀ v0 v1 v2 : String, ∀ rest : List Expr, ∀ p : Position, ∀ dom : String,
        uq v0 = some dom →
        parseGetDC uq ⟨.selector (.ident r o) "GetDC",
            .basicLit .string v0 :: .basicLit .string v1 :: .basicLit .string v2 :: rest, p⟩ s =
          Outcome.ok (write (writeContext
              (writeComments s dom (posString p) (r ++ "." ++ "GetDC")) dom v2)
            dom v1) ∧
        lookupDomain (write (writeContext
              (writeComments s dom (posString p) (r ++ "." ++ "GetDC")) dom v2)
            dom v1).domainFiles dom =
          some (afterHeader s dom ++
            ["\n#: " ++ posString p, "\n#. " ++ (r ++ "." ++ "GetDC"),
             "\nmsgctxt " ++ v2, "\nmsgid " ++ v1, "\nmsgstr \"\"", "\n"])) ∧
    (∀ uq : String → Option String, ∀ s : ProgState, ∀ r : String, ∀ o : Option ObjKind,
      ∀ v0 v1 v2 v4 : String, ∀ e : Expr, ∀ rest : List Expr, ∀ p : Position, ∀ dom : String,
        uq v0 = some dom →
        parseGetNDC uq ⟨.selector (.ident r o) "GetNDC",
            .basicLit .string v0 :: .basicLit .string v1 :: .basicLit .string v2 :: e ::
              .basicLit .string v4 :: rest, p⟩ s =
          Outcome.ok (writePlural (writeContext
              (writeComments s dom (posString p) (r ++ "." ++ "GetNDC")) dom v4)
            dom v1 v2) ∧
        lookupDomain (writePlural (writeContext
              (writeComments s dom (posString p) (r ++ "." ++ "GetNDC")) dom v4)
            dom v1 v2).domainFiles dom =
          some (afterHeader s dom ++
            ["\n#: " ++ posString p, "\n#. " ++ (r ++ "." ++ "GetNDC"),
             "\nmsgctxt " ++ v4, "\nmsgid " ++ v1, "\nmsgid_plural " ++ v2,
             "\nmsgstr[0] \"\"", "\nmsgstr[1] \"\"", "\n"])) := by
  refine ⟨?_, ?_, ?_, ?_⟩
  · intro uq s r o v0 v1 rest p dom h
    exact ⟨parseGetD_emit uq s r o v0 v1 rest p dom h,
      entry_plain s dom (posString p) _ v1⟩
  · intro uq s r o v0 v1 v2 rest p dom h
    exact ⟨parseGetND_emit uq s r o v0 v1 v2 rest p dom h,
      entry_plural s dom (posString p) _ v1 v2⟩
  · intro uq s r o v0 v1 v2 rest p dom h
    exact ⟨parseGetDC_emit uq s r o v0 v1 v2 rest p dom h,
      entry_ctx s dom (posString p) _ v2 v1⟩
  · intro uq s r o v0 v1 v2 v4 e rest p dom h
    exact ⟨parseGetNDC_emit uq s r o v0 v1 v2 v4 e rest p dom h,
      entry_ctx_plural s dom (posString p) _ v4 v1 v2⟩

set_option maxRecDepth 100000 in
/-- C7 witness at concrete inputs for the four domain variants. -/
theorem claim_C7_domain_variants_witness :
    (simpleUnquote "\"app\"" = some "app" ∧
      parseGetD simpleUnquote ⟨.selector (.ident "t" none) "GetD",
          [.basicLit .string "\"app\"", .basicLit .string "\"save\""], ⟨"f.go", 1⟩⟩
        initialState =
        Outcome.ok (write (writeComments initialState "app" (posString ⟨"f.go", 1⟩)
          ("t" ++ "." ++ "GetD")) "app" "\"save\"")) ∧
    (parseGetND simpleUnquote ⟨.selector (.ident "t" none) "GetND",
          [.basicLit .string "\"app\"", .basicLit .string "\"x\"", .basicLit .string "\"y\""],
          ⟨"f.go", 2⟩⟩ initialState =
        Outcome.ok (writePlural (writeComments initialState "app" (posString ⟨"f.go", 2⟩)
          ("t" ++ "." ++ "GetND")) "app" "\"x\"" "\"y\"")) ∧
    (parseGetDC simpleUnquote ⟨.selector (.ident "t" none) "GetDC",
          [.basicLit .string "\"app\"", .basicLit .string "\"x\"", .basicLit .string "\"c\""],
          ⟨"f.go", 3⟩⟩ initialState =
        Outcome.ok (write (writeContext (writeComments initialState "app"
          (posString ⟨"f.go", 3⟩) ("t" ++ "." ++ "GetDC")) "app" "\"c\"") "app" "\"x\"")) ∧
    (parseGetNDC simpleUnquote ⟨.selector (.ident "t" none) "GetNDC",
          [.basicLit .string "\"app\"", .basicLit .string "\"x\"", .basicLit .string "\"y\"",
           .ident "n" none, .basicLit .string "\"c\""], ⟨"f.go", 4⟩⟩ initialState =
        Outcome.ok (writePlural (writeContext (writeComments initialState "app"
          (posString ⟨"f.go", 4⟩) ("t" ++ "." ++ "GetNDC")) "app" "\"c\"")
          "app" "\"x\"" "\"y\"")) :=
  ⟨⟨by decide, (claim_C7_domain_variants.1 simpleUnquote initialState "t" none
      "\"app\"" "\"save\"" [] ⟨"f.go", 1⟩ "app" (by decide)).1⟩,
   (claim_C7_domain_variants.2.1 simpleUnquote initialState "t" none
      "\"app\"" "\"x\"" "\"y\"" [] ⟨"f.go", 2⟩ "app" (by decide)).1,
   (claim_C7_domain_variants.2.2.1 simpleUnquote initialState "t" none
      "\"app\"" "\"x\"" "\"c\"" [] ⟨"f.go", 3⟩ "app" (by decide)).1,
   (claim_C7_domain_variants.2.2.2 simpleUnquote initialState "t" none
      "\"app\"" "\"x\"" "\"y\"" "\"c\"" (.ident "n" none) [] ⟨"f.go", 4⟩ "app" (by decide)).1⟩

set_option maxRecDepth 100000 in
/-- C8 counterexample: a GetD call site a.b.GetD("app", "save") whose
receiver is not a plain identifier aborts the run (panic on the label type
assertion) even though the domain literal unquotes successfully — refuting
the part of the claim stating that a successful unquote never aborts. -/
theorem claim_C8_counterexample :
    simpleUnquote "\"app\"" = some "app" ∧
    processCalls simpleUnquote [cGetDChain] initialState = Outcome.crash :=
  ⟨by decide, by decide⟩

/-- C8 amended: for GetD, GetND, GetDC and GetNDC call sites with their
required string literals in place, an unquote failure on the position-0
literal aborts the whole run immediately with a fatal error — the remaining
call sites are never processed, so the failure is not a per-call skip — and
a successful unquote never aborts provided the receiver of the selector is
a plain identifier. -/
theorem claim_C8_amended :
    (∀ uq : String → Option String, ∀ s : ProgState, ∀ recv : Expr, ∀ v0 v1 : String,
      ∀ rest : List Expr, ∀ p : Position, ∀ more : List CallExpr,
        uq v0 = none →
        processCalls uq (⟨.selector recv "GetD",
            .basicLit .string v0 :: .basicLit .string v1 :: rest, p⟩ :: more) s =
          Outcome.fatal) ∧
    (∀ uq : String → Option String, ∀ s : ProgState, ∀ r : String, ∀ o : Option ObjKind,
      ∀ v0 v1 : String, ∀ rest : List Expr, ∀ p : Position, ∀ dom : String,
        uq v0 = some dom →
        parseGetD uq ⟨.selector (.ident r o) "GetD",
            .basicLit .string v0 :: .basicLit .string v1 :: rest, p⟩ s =
          Outcome.ok (write (writeComments s dom (posString p) (r ++ "." ++ "GetD")) dom v1)) ∧
    (∀ uq : String → Option String, ∀ s : ProgState, ∀ recv : Expr, ∀ v0 v1 v2 : String,
      ∀ rest : List Expr, ∀ p : Position, ∀ more : List CallExpr,
        uq v0 = none →
        processCalls uq (⟨.selector recv "GetND",
            .basicLit .string v0 :: .basicLit .string v1 :: .basicLit .string v2 :: rest,
            p⟩ :: more) s = Outcome.fatal) ∧
    (∀ uq : String → Option String, ∀ s : ProgState, ∀ r : String, ∀ o : Option ObjKind,
      ∀ v0 v1 v2 : String, ∀ rest : List Expr, ∀ p : Position, ∀ dom : String,
        uq v0 = some dom →
        parseGetND uq ⟨.selector (.ident r o) "GetND",
            .basicLit .string v0 :: .basicLit .string v1 :: .basicLit .string v2 :: rest, p⟩ s =
          Outcome.ok (writePlural (writeComments s dom (posString p) (r ++ "." ++ "GetND"))
            dom v1 v2)) ∧
    (∀ uq : String → Option String, ∀ s : ProgState, ∀ recv : Expr, ∀ v0 v1 v2 : String,
      ∀ rest : List Expr, ∀ p : Position, ∀ more : List CallExpr,
        uq v0 = none →
        processCalls uq (⟨.selector recv "GetDC",
            .basicLit .string v0 :: .basicLit .string v1 :: .basicLit .string v2 :: rest,
            p⟩ :: more) s = Outcome.fatal) ∧
    (∀ uq : String → Option String, ∀ s : ProgState, ∀ r : String, ∀ o : Option ObjKind,
      ∀ v0 v1 v2 : String, ∀ rest : List Expr, ∀ p : Position, ∀ dom : String,
        uq v0 = some dom →
        parseGetDC uq ⟨.selector (.ident r o) "GetDC",
            .basicLit .string v0 :: .basicLit .string v1 :: .basicLit .string v2 :: rest, p⟩ s =
          Outcome.ok (write (writeContext
            (writeComments s dom (posString p) (r ++ "." ++ "GetDC")) dom v2) dom v1)) ∧
    (∀ uq : String → Option String, ∀ s : ProgState, ∀ recv : Expr, ∀ v0 v1 v2 v4 : String,
      ∀ e : Expr, ∀ rest : List Expr, ∀ p : Position, ∀ more : List CallExpr,
        uq v0 = none →
        processCalls uq (⟨.selector recv "GetNDC",
            .basicLit .string v0 :: .basicLit .string v1 :: .basicLit .string v2 :: e ::
              .basicLit .string v4 :: rest, p⟩ :: more) s = Outcome.fatal) ∧
    (∀ uq : String → Option String, ∀ s : ProgState, ∀ r : String, ∀ o : Option ObjKind,
      ∀ v0 v1 v2 v4 : String, ∀ e : Expr, ∀ rest : List Expr, ∀ p : Position, ∀ dom : String,
        uq v0 = some dom →
        parseGetNDC uq ⟨.selector (.ident r o) "GetNDC",
            .basicLit .string v0 :: .basicLit .string v1 :: .basicLit .string v2 :: e ::
              .basicLit .string v4 :: rest, p⟩ s =
          Outcome.ok (writePlural (writeContext
            (writeComments s dom (posString p) (r ++ "." ++ "GetNDC")) dom v4) dom v1 v2)) := by
  refine ⟨?_, ?_, ?_, ?_, ?_, ?_, ?_, ?_⟩
  · intro uq s recv v0 v1 rest p more h
    have hstep : processCalls uq (⟨.selector recv "GetD",
        .basicLit .string v0 :: .basicLit .string v1 :: rest, p⟩ :: more) s =
        obind (parseGetD uq ⟨.selector recv "GetD",
          .basicLit .string v0 :: .basicLit .string v1 :: rest, p⟩ s)
          (processCalls uq more) := rfl
    rw [hstep, parseGetD_fatal uq s _ v0 v1 rest p h]
    rfl
  · exact fun uq s r o v0 v1 rest p dom h => parseGetD_emit uq s r o v0 v1 rest p dom h
  · intro uq s recv v0 v1 v2 rest p more h
    have hstep : processCalls uq (⟨.selector recv "GetND",
        .basicLit .string v0 :: .basicLit .string v1 :: .basicLit .string v2 :: rest,
        p⟩ :: more) s =
        obind (parseGetND uq ⟨.selector recv "GetND",
          .basicLit .string v0 :: .basicLit .string v1 :: .basicLit .string v2 :: rest, p⟩ s)
          (processCalls uq more) := rfl
    rw [hstep, parseGetND_fatal uq s _ v0 v1 v2 rest p h]
    rfl
  · exact fun uq s r o v0 v1 v2 rest p dom h => parseGetND_emit uq s r o v0 v1 v2 rest p dom h
  · intro uq s recv v0 v1 v2 rest p more h
    have hstep : processCalls uq (⟨.selector recv "GetDC",
        .basicLit .string v0 :: .basicLit .string v1 :: .basicLit .string v2 :: rest,
        p⟩ :: more) s =
        obind (parseGetDC uq ⟨.selector recv "GetDC",
          .basicLit .string v0 :: .basicLit .string v1 :: .basicLit .string v2 :: rest, p⟩ s)
          (processCalls uq more) := rfl
    rw [hstep, parseGetDC_fatal uq s _ v0 v1 v2 rest p h]
    rfl
  · exact fun uq s r o v0 v1 v2 rest p dom h => parseGetDC_emit uq s r o v0 v1 v2 rest p dom h
  · intro uq s recv v0 v1 v2 v4 e rest p more h
    have hstep : processCalls uq (⟨.selector recv "GetNDC",
        .basicLit .string v0 :: .basicLit .string v1 :: .basicLit .string v2 :: e ::
          .basicLit .string v4 :: rest, p⟩ :: more) s =
        obind (parseGetNDC uq ⟨.selector recv "GetNDC",
          .basicLit .string v0 :: .basicLit .string v1 :: .basicLit .string v2 :: e ::
            .basicLit .string v4 :: rest, p⟩ s)
          (processCalls uq more) := rfl
    rw [hstep, parseGetNDC_fatal uq s _ v0 v1 v2 v4 e rest p h]
    rfl
  · exact fun uq s r o v0 v1 v2 v4 e rest p dom h =>
      parseGetNDC_emit uq s r o v0 v1 v2 v4 e rest p dom h

set_option maxRecDepth 100000 in
/-- C8 amended, witness: an unquotable domain token aborts the run with a
fatal error for each domain variant; a quotable one with a plain-identifier
receiver continues normally (shown for GetD). -/
theorem claim_C8_amended_witness :
    (simpleUnquote "oops" = none ∧
      processCalls simpleUnquote [⟨.selector (.ident "t" none) "GetD",
          [.basicLit .string "oops", .basicLit .string "\"x\""], ⟨"f.go", 1⟩⟩]
        initialState = Outcome.fatal) ∧
    (processCalls simpleUnquote [⟨.selector (.ident "t" none) "GetND",
          [.basicLit .string "oops", .basicLit .string "\"x\"", .basicLit .string "\"y\""],
          ⟨"f.go", 2⟩⟩] initialState = Outcome.fatal) ∧
    (processCalls simpleUnquote [⟨.selector (.ident "t" none) "GetDC",
          [.basicLit .string "oops", .basicLit .string "\"x\"", .basicLit .string "\"c\""],
          ⟨"f.go", 3⟩⟩] initialState = Outcome.fatal) ∧
    (processCalls simpleUnquote [⟨.selector (.ident "t" none) "GetNDC",
          [.basicLit .string "oops", .basicLit .string "\"x\"", .basicLit .string "\"y\"",
           .otherExpr, .basicLit .string "\"c\""], ⟨"f.go", 4⟩⟩] initialState =
        Outcome.fatal) ∧
    (simpleUnquote "\"app\"" = some "app" ∧
      parseGetD simpleUnquote ⟨.selector (.ident "t" none) "GetD",
          [.basicLit .string "\"app\"", .basicLit .string "\"x\""], ⟨"f.go", 5⟩⟩
        initialState =
        Outcome.ok (write (writeComments initialState "app" (posString ⟨"f.go", 5⟩)
          ("t" ++ "." ++ "GetD")) "app" "\"x\"")) :=
  ⟨⟨by decide, claim_C8_amended.1 simpleUnquote initialState (.ident "t" none)
      "oops" "\"x\"" [] ⟨"f.go", 1⟩ [] (by decide)⟩,
   claim_C8_amended.2.2.1 simpleUnquote initialState (.ident "t" none)
      "oops" "\"x\"" "\"y\"" [] ⟨"f.go", 2⟩ [] (by decide),
   claim_C8_amended.2.2.2.2.1 simpleUnquote initialState (.ident "t" none)
      "oops" "\"x\"" "\"c\"" [] ⟨"f.go", 3⟩ [] (by decide),
   claim_C8_amended.2.2.2.2.2.2.1 simpleUnquote initialState (.ident "t" none)
      "oops" "\"x\"" "\"y\"" "\"c\"" .otherExpr [] ⟨"f.go", 4⟩ [] (by decide),
   ⟨by decide, claim_C8_amended.2.1 simpleUnquote initialState "t" none
      "\"app\"" "\"x\"" [] ⟨"f.go", 5⟩ "app" (by decide)⟩⟩

/-- C9: a fully matched GetD call writes its record to the catalog of the
domain decoded from its position-0 literal and leaves the stream of every
other domain — in particular the default domain — exactly as it was. -/
theorem claim_C9_frame :
    ∀ uq : String → Option String, ∀ s : ProgState, ∀ r : String, ∀ o : Option ObjKind,
      ∀ v0 v1 : String, ∀ rest : List Expr, ∀ p : Position, ∀ dom d' : String,
        uq v0 = some dom → d' ≠ dom →
        parseGetD uq ⟨.selector (.ident r o) "GetD",
            .basicLit .string v0 :: .basicLit .string v1 :: rest, p⟩ s =
          Outcome.ok (write (writeComments s dom (posString p) (r ++ "." ++ "GetD")) dom v1) ∧
        lookupDomain (write (writeComments s dom (posString p) (r ++ "." ++ "GetD"))
            dom v1).domainFiles d' = lookupDomain s.domainFiles d' := by
  intro uq s r o v0 v1 rest p dom d' h hne
  refine ⟨parseGetD_emit uq s r o v0 v1 rest p dom h, ?_⟩
  rw [lookup_write_ne _ _ _ _ hne, lookup_writeComments_ne _ _ _ _ _ hne]

set_option maxRecDepth 100000 in
/-- C9 witness: GetD("app", "save") from the initial state registers app
only; the default domain remains unregistered (default.po untouched). -/
theorem claim_C9_frame_witness :
    simpleUnquote "\"app\"" = some "app" ∧ ("default" : String) ≠ "app" ∧
    parseGetD simpleUnquote ⟨.selector (.ident "t" none) "GetD",
        [.basicLit .string "\"app\"", .basicLit .string "\"save\""], ⟨"f.go", 1⟩⟩
      initialState =
      Outcome.ok (write (writeComments initialState "app" (posString ⟨"f.go", 1⟩)
        ("t" ++ "." ++ "GetD")) "app" "\"save\"") ∧
    lookupDomain (write (writeComments initialState "app" (posString ⟨"f.go", 1⟩)
        ("t" ++ "." ++ "GetD")) "app" "\"save\"").domainFiles "default" =
      lookupDomain initialState.domainFiles "default" :=
  ⟨by decide, by decide,
   (claim_C9_frame simpleUnquote initialState "t" none "\"app\"" "\"save\"" [] ⟨"f.go", 1⟩
      "app" "default" (by decide) (by decide)).1,
   (claim_C9_frame simpleUnquote initialState "t" none "\"app\"" "\"save\"" [] ⟨"f.go", 1⟩
      "app" "default" (by decide) (by decide)).2⟩

/-- C10: the label construction assumes the receiver of the selector is a
plain identifier: under that precondition a matched Get call with a string
literal argument always succeeds (the type assertions in the comment
builder cannot fail), and a matched call whose receiver has any other
expression shape is not silently skipped — the failed type assertion panics
and the run crashes. -/
theorem claim_C10_receiver :
    (∀ s : ProgState, ∀ r : String, ∀ o : Option ObjKind, ∀ v : String, ∀ rest : List Expr,
      ∀ p : Position,
        parseGet ⟨.selector (.ident r o) "Get", .basicLit .string v :: rest, p⟩ s =
          Outcome.ok (write (writeComments s s.currentDomain (posString p) (r ++ "." ++ "Get"))
            s.currentDomain v)) ∧
    (∀ s : ProgState, ∀ recv : Expr, ∀ v : String, ∀ rest : List Expr, ∀ p : Position,
        isIdentExpr recv = false →
        parseGet ⟨.selector recv "Get", .basicLit .string v :: rest, p⟩ s = Outcome.crash) :=
  ⟨fun s r o v rest p => parseGet_emit s r o v rest p,
   fun s recv v rest p h => parseGet_crash s recv v rest p h⟩

set_option maxRecDepth 100000 in
/-- C10 witness: a chained-receiver call a.b.Get("hi") crashes instead of
being skipped; a plain-identifier receiver emits normally. -/
theorem claim_C10_receiver_witness :
    parseGet ⟨.selector (.ident "t" none) "Get", [.basicLit .string "\"hi\""], ⟨"f.go", 1⟩⟩
      initialState =
      Outcome.ok (write (writeComments initialState "default" (posString ⟨"f.go", 1⟩)
        ("t" ++ "." ++ "Get")) "default" "\"hi\"") ∧
    isIdentExpr .otherExpr = false ∧
    parseGet ⟨.selector .otherExpr "Get", [.basicLit .string "\"hi\""], ⟨"f.go", 1⟩⟩
      initialState = Outcome.crash :=
  ⟨claim_C10_receiver.1 initialState "t" none "\"hi\"" [] ⟨"f.go", 1⟩,
   by decide,
   claim_C10_receiver.2 initialState .otherExpr "\"hi\"" [] ⟨"f.go", 1⟩ (by decide)⟩

end Gotext
